import Mathlib

/-!
Verification of the `react-undoable` history state machine
(`src/index.tsx`, class `Undoable<T>`).

The component keeps three slots: `currentState : T | undefined`,
`previousState : (T | undefined)[]` and `nextState : (T | undefined)[]`,
and five operations (`pushState`, `undo`, `redo`, `resetState`,
`updateState`) plus the React lifecycle seeding hook
`getDerivedStateFromProps`.  We embed the state as a structure over
`Option T` slots and each operation as a pure transition function,
following the TypeScript line by line.
-/

namespace ReactUndoable

/-- The three-slot history state of the `Undoable<T>` component
(`IUndoableState<T>` in the source).  Stack elements are `Option T`
because the TypeScript arrays are typed as arrays of `T | undefined`. -/
structure HistoryState (T : Type) where
  currentState : Option T
  previousState : List (Option T)
  nextState : List (Option T)
deriving DecidableEq

/-- The component's declared initial class state:
`currentState` is `undefined` and both stacks are empty. -/
def initialComponentState (T : Type) : HistoryState T :=
  ⟨none, [], []⟩

/-- `undo`: when `previousState` is non-empty, pop its last element into
the new `currentState`, append the old `currentState` to the end of
`nextState`, and return the popped element; otherwise return `undefined`
(here `none`) and leave the state unchanged.  The first component of the
pair is the JavaScript return value. -/
def undo {T : Type} (s : HistoryState T) : Option T × HistoryState T :=
  match s.previousState.getLast? with
  | some nextCurrentState =>
      (nextCurrentState,
        { currentState := nextCurrentState
          previousState := s.previousState.dropLast
          nextState := s.nextState ++ [s.currentState] })
  | none => (none, s)

/-- `redo`: when `nextState` is non-empty, pop its last element into the
new `currentState`, append the old `currentState` to the end of
`previousState`, and return the popped element; otherwise return
`undefined` and leave the state unchanged. -/
def redo {T : Type} (s : HistoryState T) : Option T × HistoryState T :=
  match s.nextState.getLast? with
  | some nextCurrentState =>
      (nextCurrentState,
        { currentState := nextCurrentState
          previousState := s.previousState ++ [s.currentState]
          nextState := s.nextState.dropLast })
  | none => (none, s)

/-- `pushState`: append the previous `currentState` to the end of
`previousState`, set `currentState` to the pushed value, clear
`nextState`. -/
def pushState {T : Type} (state : T) (s : HistoryState T) : HistoryState T :=
  { currentState := some state
    previousState := s.previousState ++ [s.currentState]
    nextState := [] }

/-- `resetState`: set `currentState` to the given value and clear both
stacks.  The public interface `IUndoableMethods` declares the parameter
optional (`state?: T`), so it is modelled as `Option T`; a call with no
argument corresponds to `none`. -/
def resetState {T : Type} (state : Option T) (_s : HistoryState T) : HistoryState T :=
  { currentState := state
    previousState := []
    nextState := [] }

/-- `updateState`: set `currentState` to the given value; the partial
`setState` leaves `previousState` and `nextState` untouched. -/
def updateState {T : Type} (state : T) (s : HistoryState T) : HistoryState T :=
  { s with currentState := some state }

/-- `getDerivedStateFromProps`: returns the partial state update (the
new `currentState`) when the incoming `initialState` prop is truthy
(modelled as `some`) and `currentState` is still `undefined`; otherwise
returns `null` (modelled as `none`), meaning no update. -/
def getDerivedStateFromProps {T : Type} (initialState : Option T)
    (s : HistoryState T) : Option T :=
  match initialState, s.currentState with
  | some v, none => some v
  | _, _ => none

/-- React merges a non-null partial update produced by
`getDerivedStateFromProps` into the component state. -/
def applyDerived {T : Type} (s : HistoryState T) : Option T → HistoryState T
  | some v => { s with currentState := some v }
  | none => s

/-- The full recorded timeline of a history state: the past (oldest
first), then the current value, then the future from most recently
undone back to oldest undone. -/
def timeline {T : Type} (s : HistoryState T) : List (Option T) :=
  s.previousState ++ [s.currentState] ++ s.nextState.reverse

/-- Helper: `undo` on a state whose past ends in `x` pops `x` into
`currentState` and appends the old current to the future. -/
theorem undo_concat {T : Type} (c x : Option T) (p f : List (Option T)) :
    undo ⟨c, p ++ [x], f⟩ = (x, ⟨x, p, f ++ [c]⟩) := by
  simp [undo, List.getLast?_concat, List.dropLast_concat]

/-- Helper: `redo` on a state whose future ends in `x` pops `x` into
`currentState` and appends the old current to the past. -/
theorem redo_concat {T : Type} (c x : Option T) (p f : List (Option T)) :
    redo ⟨c, p, f ++ [x]⟩ = (x, ⟨x, p ++ [c], f⟩) := by
  simp [redo, List.getLast?_concat, List.dropLast_concat]

/-- C1 (counterexample): with `a = 0`, `b = 1`, `c = 2`, after
`pushState 1`, `pushState 2` and two `undo` calls the future stack is
`[some 2, some 1]` (that is, `[c, b]`), not `[b, c]` as claimed. -/
theorem pushPushUndoUndo_future_not_bc :
    ((undo ((undo (pushState 2 (pushState 1
        (⟨some 0, [], []⟩ : HistoryState Nat)))).2)).2).nextState
      ≠ [some 1, some 2] := by decide

/-- C1 (amended): starting from current `a` with empty stacks,
`pushState b`, `pushState c`, then two `undo` calls yield current `a`
with empty past; after the first `undo` the future is `[c]`, and after
the second `undo` the future is `[c, b]` (oldest-undone first, most
recently undone at the tail). -/
theorem pushPushUndoUndo_trace (T : Type) (a b c : T) :
    ((undo (pushState c (pushState b (⟨some a, [], []⟩ : HistoryState T)))).2
        = ⟨some b, [some a], [some c]⟩) ∧
    ((undo ((undo (pushState c (pushState b
        (⟨some a, [], []⟩ : HistoryState T)))).2)).2
        = ⟨some a, [], [some c, some b]⟩) := by
  constructor <;> rfl

/-- C2: on any history state with non-empty past, `undo` followed by
`redo` restores exactly the triple (current, past, future) that held
before the `undo` call. -/
theorem redo_after_undo_restores (T : Type) (s : HistoryState T)
    (h : s.previousState ≠ []) :
    (redo ((undo s).2)).2 = s := by
  obtain ⟨p, x, hpx⟩ := (s.previousState.eq_nil_or_concat).resolve_left h
  obtain ⟨c, ps, f⟩ := s
  simp only at hpx
  subst hpx
  simp only [List.concat_eq_append]
  rw [undo_concat, redo_concat]

/-- C2 witness at a concrete state. -/
theorem redo_after_undo_restores_witness :
    (([some 0] : List (Option Nat)) ≠ []) ∧
    (redo ((undo (⟨some 1, [some 0], [some 2]⟩ : HistoryState Nat)).2)).2
      = ⟨some 1, [some 0], [some 2]⟩ :=
  ⟨by decide, redo_after_undo_restores Nat ⟨some 1, [some 0], [some 2]⟩ (by decide)⟩

/-- C3: `pushState value` appends the previous current to the end of the
past, sets current to the value, and clears the future, for every state
and every value (no precondition). -/
theorem pushState_spec (T : Type) (v : T) (s : HistoryState T) :
    pushState v s = ⟨some v, s.previousState ++ [s.currentState], []⟩ := rfl

/-- C4: when the past is non-empty, `undo` returns the post-transition
current, which is the element at the tail of the past before the pop;
symmetrically, when the future is non-empty, `redo` returns the
post-transition current, which is the tail element of the future. -/
theorem undo_redo_return_tail (T : Type) (s : HistoryState T) :
    (s.previousState ≠ [] →
      (undo s).1 = ((undo s).2).currentState ∧
      s.previousState.getLast? = some ((undo s).1)) ∧
    (s.nextState ≠ [] →
      (redo s).1 = ((redo s).2).currentState ∧
      s.nextState.getLast? = some ((redo s).1)) := by
  constructor
  · intro h
    obtain ⟨p, x, hpx⟩ := (s.previousState.eq_nil_or_concat).resolve_left h
    obtain ⟨c, ps, f⟩ := s
    simp only at hpx
    subst hpx
    simp only [List.concat_eq_append]
    rw [undo_concat]
    simp [List.getLast?_concat]
  · intro h
    obtain ⟨p, x, hpx⟩ := (s.nextState.eq_nil_or_concat).resolve_left h
    obtain ⟨c, ps, f⟩ := s
    simp only at hpx
    subst hpx
    simp only [List.concat_eq_append]
    rw [redo_concat]
    simp [List.getLast?_concat]

/-- C4 witness at a concrete state with both stacks non-empty. -/
theorem undo_redo_return_tail_witness :
    ((undo (⟨some 1, [some 0], [some 2]⟩ : HistoryState Nat)).1
        = ((undo (⟨some 1, [some 0], [some 2]⟩ : HistoryState Nat)).2).currentState ∧
      ([some 0] : List (Option Nat)).getLast?
        = some ((undo (⟨some 1, [some 0], [some 2]⟩ : HistoryState Nat)).1)) ∧
    ((redo (⟨some 1, [some 0], [some 2]⟩ : HistoryState Nat)).1
        = ((redo (⟨some 1, [some 0], [some 2]⟩ : HistoryState Nat)).2).currentState ∧
      ([some 2] : List (Option Nat)).getLast?
        = some ((redo (⟨some 1, [some 0], [some 2]⟩ : HistoryState Nat)).1)) :=
  ⟨(undo_redo_return_tail Nat ⟨some 1, [some 0], [some 2]⟩).1 (by decide),
   (undo_redo_return_tail Nat ⟨some 1, [some 0], [some 2]⟩).2 (by decide)⟩

/-- C5: on an empty past, `undo` returns `undefined` and leaves the
state completely unchanged; likewise `redo` on an empty future. -/
theorem undo_redo_empty_noop (T : Type) (s : HistoryState T) :
    (s.previousState = [] → undo s = (none, s)) ∧
    (s.nextState = [] → redo s = (none, s)) := by
  constructor
  · intro h
    simp [undo, h]
  · intro h
    simp [redo, h]

/-- C5 witness at a concrete state with both stacks empty. -/
theorem undo_redo_empty_noop_witness :
    undo (⟨some 3, [], []⟩ : HistoryState Nat) = (none, ⟨some 3, [], []⟩) ∧
    redo (⟨some 3, [], []⟩ : HistoryState Nat) = (none, ⟨some 3, [], []⟩) :=
  ⟨(undo_redo_empty_noop Nat ⟨some 3, [], []⟩).1 rfl,
   (undo_redo_empty_noop Nat ⟨some 3, [], []⟩).2 rfl⟩

/-- C6: `updateState value` sets current to the value and leaves both
stacks unchanged in content (hence in length), for every state and
value. -/
theorem updateState_frame (T : Type) (v : T) (s : HistoryState T) :
    (updateState v s).currentState = some v ∧
    (updateState v s).previousState = s.previousState ∧
    (updateState v s).nextState = s.nextState :=
  ⟨rfl, rfl, rfl⟩

/-- C7: `resetState value` sets current to the value and empties both
stacks, regardless of the prior state. -/
theorem resetState_clears (T : Type) (v : T) (s : HistoryState T) :
    resetState (some v) s = ⟨some v, [], []⟩ := rfl

/-- C8 (counterexample): the adoption rule fires for initial value `1`
on the initial component state, setting current to `1`; after a
subsequent `resetState` with no value, it fires again with a changed
initial value `2` — so it is not once-per-instance-lifetime. -/
theorem adoption_refires_counterexample :
    getDerivedStateFromProps (some 1) (initialComponentState Nat) = some 1 ∧
    (applyDerived (initialComponentState Nat)
        (getDerivedStateFromProps (some 1) (initialComponentState Nat))).currentState
      = some 1 ∧
    getDerivedStateFromProps (some 2)
        (resetState none (applyDerived (initialComponentState Nat)
          (getDerivedStateFromProps (some 1) (initialComponentState Nat))))
      = some 2 := by
  decide

/-- C8 (amended): the adoption rule fires exactly when the supplied
initial value is available (truthy) and current is still `undefined`; in
particular it never fires while current is defined, whatever the initial
value has changed to — but it is not guaranteed to fire at most once per
instance, since a later operation can make current `undefined` again. -/
theorem adoption_guard (T : Type) (init : Option T) (s : HistoryState T) :
    getDerivedStateFromProps init s
      = if s.currentState.isNone then init else none := by
  cases init <;> cases h : s.currentState <;>
    simp [getDerivedStateFromProps, h]

/-- C9: a successful `undo` or `redo` preserves the full timeline
`past ++ [current] ++ reverse future` and the total length
`past.length + future.length`, so no recorded value is lost or
duplicated by these operations. -/
theorem undo_redo_preserve_timeline (T : Type) (s : HistoryState T) :
    (s.previousState ≠ [] →
      timeline ((undo s).2) = timeline s ∧
      ((undo s).2).previousState.length + ((undo s).2).nextState.length
        = s.previousState.length + s.nextState.length) ∧
    (s.nextState ≠ [] →
      timeline ((redo s).2) = timeline s ∧
      ((redo s).2).previousState.length + ((redo s).2).nextState.length
        = s.previousState.length + s.nextState.length) := by
  constructor
  · intro h
    obtain ⟨p, x, hpx⟩ := (s.previousState.eq_nil_or_concat).resolve_left h
    obtain ⟨c, ps, f⟩ := s
    simp only at hpx
    subst hpx
    simp only [List.concat_eq_append]
    rw [undo_concat]
    constructor
    · simp [timeline]
    · simp
      omega
  · intro h
    obtain ⟨p, x, hpx⟩ := (s.nextState.eq_nil_or_concat).resolve_left h
    obtain ⟨c, ps, f⟩ := s
    simp only at hpx
    subst hpx
    simp only [List.concat_eq_append]
    rw [redo_concat]
    constructor
    · simp [timeline]
    · simp
      omega

/-- C9 witness at a concrete state with both stacks non-empty. -/
theorem undo_redo_preserve_timeline_witness :
    (timeline ((undo (⟨some 1, [some 0], [some 2]⟩ : HistoryState Nat)).2)
        = timeline (⟨some 1, [some 0], [some 2]⟩ : HistoryState Nat) ∧
      ((undo (⟨some 1, [some 0], [some 2]⟩ : HistoryState Nat)).2).previousState.length
          + ((undo (⟨some 1, [some 0], [some 2]⟩ : HistoryState Nat)).2).nextState.length
        = 2) ∧
    (timeline ((redo (⟨some 1, [some 0], [some 2]⟩ : HistoryState Nat)).2)
        = timeline (⟨some 1, [some 0], [some 2]⟩ : HistoryState Nat) ∧
      ((redo (⟨some 1, [some 0], [some 2]⟩ : HistoryState Nat)).2).previousState.length
          + ((redo (⟨some 1, [some 0], [some 2]⟩ : HistoryState Nat)).2).nextState.length
        = 2) :=
  ⟨(undo_redo_preserve_timeline Nat ⟨some 1, [some 0], [some 2]⟩).1 (by decide),
   (undo_redo_preserve_timeline Nat ⟨some 1, [some 0], [some 2]⟩).2 (by decide)⟩

/-- C10: `resetState` with no value (the interface declares the
parameter optional) sets current to `undefined` with both stacks empty,
and the adoption guard, testing only whether current is `undefined`,
then adopts the supplied initial value again on the next derivation —
the seeding rule can fire more than once per instance. -/
theorem resetState_none_refires_adoption (T : Type) (s : HistoryState T) (init : T) :
    resetState none s = ⟨none, [], []⟩ ∧
    getDerivedStateFromProps (some init) (resetState none s) = some init :=
  ⟨rfl, rfl⟩

end ReactUndoable
